import Mathlib

/-!
Shallow embedding of the gcloud command-construction layer
(`internal/executor/executor.go`, `internal/executor/output.go`,
`internal/config/config.go`) and proofs about its builder algebra,
argument-list construction, result interpretation and error formatting.

Go maps (`flags`, `arrayFlags`) are modelled as insertion-ordered
association lists with last-write-wins update; Go's unspecified map
iteration order is fixed to insertion order, which is legitimate for the
properties below (they either quantify per-entry or are explicitly
order-insensitive across flag names). `time.Duration` is modelled as an
integer number of nanoseconds. `strings.TrimSpace` is modelled directly on
the character list; `encoding/json` marshalling of the error-response
struct is modelled at the level of the ordered field list it emits.
-/

namespace GcloudMcp

/-- Config from internal/config/config.go: default project, region, zone,
gcloud binary path, and command timeout (nanoseconds). -/
structure Config where
  Project : String
  Region : String
  Zone : String
  GCloudPath : String
  CommandTimeout : Int
deriving DecidableEq

/-- Executor from executor.go: holds the loaded Config. -/
structure Executor where
  config : Config
deriving DecidableEq

/-- Last-write-wins update of an insertion-ordered association list,
modelling the Go map assignment of flags name value. -/
def setFlag : List (String × String) → String → String → List (String × String)
  | [], n, v => [(n, v)]
  | (n', v') :: rest, n, v =>
      if n' = n then (n, v) :: rest else (n', v') :: setFlag rest n v

/-- Append a value to the list stored under a key, modelling the Go map
update appending value to arrayFlags name. -/
def addArrayValue : List (String × List String) → String → String → List (String × List String)
  | [], n, v => [(n, [v])]
  | (n', vs) :: rest, n, v =>
      if n' = n then (n', vs ++ [v]) :: rest else (n', vs) :: addArrayValue rest n v

/-- CommandBuilder from executor.go. -/
structure CommandBuilder where
  executor : Executor
  components : List String
  flags : List (String × String)
  arrayFlags : List (String × List String)
  boolFlags : List String
  project : String
  region : String
  zone : String
  format : String
deriving DecidableEq

/-- Executor.Command (executor.go lines 54-65): fresh builder seeded with
the config defaults and format json. -/
def Executor.Command (e : Executor) (components : List String) : CommandBuilder :=
  { executor := e
    components := components
    flags := []
    arrayFlags := []
    boolFlags := []
    project := e.config.Project
    region := e.config.Region
    zone := e.config.Zone
    format := "json" }

/-- WithProject (executor.go lines 68-73). -/
def CommandBuilder.WithProject (b : CommandBuilder) (project : String) : CommandBuilder :=
  if project ≠ "" then { b with project := project } else b

/-- WithRegion (executor.go lines 76-81). -/
def CommandBuilder.WithRegion (b : CommandBuilder) (region : String) : CommandBuilder :=
  if region ≠ "" then { b with region := region } else b

/-- WithZone (executor.go lines 84-89). -/
def CommandBuilder.WithZone (b : CommandBuilder) (zone : String) : CommandBuilder :=
  if zone ≠ "" then { b with zone := zone } else b

/-- WithFlag (executor.go lines 92-97). -/
def CommandBuilder.WithFlag (b : CommandBuilder) (name value : String) : CommandBuilder :=
  if value ≠ "" then { b with flags := setFlag b.flags name value } else b

/-- WithArrayFlag (executor.go lines 100-105). -/
def CommandBuilder.WithArrayFlag (b : CommandBuilder) (name value : String) : CommandBuilder :=
  if value ≠ "" then { b with arrayFlags := addArrayValue b.arrayFlags name value } else b

/-- WithBoolFlag (executor.go lines 108-111): unconditional append. -/
def CommandBuilder.WithBoolFlag (b : CommandBuilder) (name : String) : CommandBuilder :=
  { b with boolFlags := b.boolFlags ++ [name] }

/-- WithFormat (executor.go lines 114-117): unconditional overwrite. -/
def CommandBuilder.WithFormat (b : CommandBuilder) (format : String) : CommandBuilder :=
  { b with format := format }

/-- WithTextFormat (executor.go lines 120-123): clears the format. -/
def CommandBuilder.WithTextFormat (b : CommandBuilder) : CommandBuilder :=
  { b with format := "" }

/-- Token printed by fmt.Sprintf with two string verbs for a valued flag. -/
def flagToken (n v : String) : String := "--" ++ n ++ "=" ++ v

/-- Tokens contributed by the flags map (Build loop at lines 131-133). -/
def flagTokens (fs : List (String × String)) : List String :=
  fs.map fun p => flagToken p.1 p.2

/-- Tokens contributed by the arrayFlags map (Build loop at lines 136-140). -/
def arrayFlagTokens (a : List (String × List String)) : List String :=
  (a.map fun p => p.2.map fun v => flagToken p.1 v).flatten

/-- Tokens contributed by boolFlags (Build loop at lines 143-145). -/
def boolFlagTokens (bs : List String) : List String :=
  bs.map fun f => "--" ++ f

/-- Build (executor.go lines 126-158). -/
def CommandBuilder.Build (b : CommandBuilder) : List String :=
  b.components
    ++ flagTokens b.flags
    ++ arrayFlagTokens b.arrayFlags
    ++ boolFlagTokens b.boolFlags
    ++ (if b.project ≠ "" then ["--project=" ++ b.project] else [])
    ++ (if b.format ≠ "" then ["--format=" ++ b.format] else [])

/-- The caller-controlled portion of the built argument list: everything
Build emits before the project and format tokens it adds itself. -/
def callerTokens (b : CommandBuilder) : List String :=
  b.components ++ flagTokens b.flags ++ arrayFlagTokens b.arrayFlags
    ++ boolFlagTokens b.boolFlags

/-- Argument list handed to the spawned process by Execute
(executor.go line 162). -/
def executeArgs (b : CommandBuilder) : List String := b.Build

/-- Argument list handed to the spawned process by ExecuteWithRegion
(executor.go lines 199-204): injects a region flag when the region field is
non-empty, then delegates to Execute. -/
def executeWithRegionArgs (b : CommandBuilder) : List String :=
  (if b.region ≠ "" then b.WithFlag "region" b.region else b).Build

/-- Argument list handed to the spawned process by ExecuteWithZone
(executor.go lines 207-212). -/
def executeWithZoneArgs (b : CommandBuilder) : List String :=
  (if b.zone ≠ "" then b.WithFlag "zone" b.zone else b).Build

/-- Recognizer for region tokens: strings that begin with the region-flag
text. -/
def regionTok (t : String) : Bool := "--region=".data.isPrefixOf t.data

/-- Recognizer for format tokens: strings that begin with the format-flag
text. -/
def fmtTok (t : String) : Bool := "--format=".data.isPrefixOf t.data

/-- Model of strings.TrimSpace: drop whitespace from both ends. -/
def trimSpace (s : String) : String :=
  ⟨((s.data.dropWhile Char.isWhitespace).reverse.dropWhile Char.isWhitespace).reverse⟩

/-- Result from executor.go lines 16-28: JSON payload (nil RawMessage
modelled as none), raw stdout, raw stderr, exit code. -/
structure Result where
  JSON : Option String
  Stdout : String
  Stderr : String
  ExitCode : Int
deriving DecidableEq

/-- Success path of Execute (executor.go lines 175-195 with err = nil):
the result built from the captured output, including the structured-payload
detection at lines 187-193. -/
def interpretSuccess (b : CommandBuilder) (stdout stderr : String) : Result :=
  let result : Result := { JSON := none, Stdout := stdout, Stderr := stderr, ExitCode := 0 }
  if b.format = "json" ∧ 0 < stdout.length then
    if trimSpace stdout ≠ "" then { result with JSON := some (trimSpace stdout) } else result
  else result

/-- ErrorResponse from output.go lines 36-40. -/
structure ErrorResponse where
  Error : String
  Command : String
  Stderr : String
deriving DecidableEq

/-- Fields of the JSON object emitted for an ErrorResponse by
encoding/json MarshalIndent: field order follows the struct declaration,
and the omitempty options on Command and Stderr drop those fields when they
are empty, so deserializing the text recovers exactly this field list. -/
def ErrorResponse.marshalFields (r : ErrorResponse) : List (String × String) :=
  [("error", r.Error)]
    ++ (if r.Command = "" then [] else [("command", r.Command)])
    ++ (if r.Stderr = "" then [] else [("stderr", r.Stderr)])

/-- FormatError (output.go lines 43-51), with the Go error argument
modelled by its message string and the marshalled JSON text by the field
list the text deserializes to. -/
def FormatError (errMsg command stderr : String) : List (String × String) :=
  ErrorResponse.marshalFields { Error := errMsg, Command := command, Stderr := stderr }

/-- One call through the builder's public mutator interface. -/
inductive BuilderOp where
  | withProject (project : String)
  | withRegion (region : String)
  | withZone (zone : String)
  | withFlag (name value : String)
  | withArrayFlag (name value : String)
  | withBoolFlag (name : String)
  | withFormat (format : String)
  | withTextFormat

/-- Apply one public mutator call to a builder. -/
def applyOp (b : CommandBuilder) : BuilderOp → CommandBuilder
  | .withProject p => b.WithProject p
  | .withRegion r => b.WithRegion r
  | .withZone z => b.WithZone z
  | .withFlag n v => b.WithFlag n v
  | .withArrayFlag n v => b.WithArrayFlag n v
  | .withBoolFlag n => b.WithBoolFlag n
  | .withFormat f => b.WithFormat f
  | .withTextFormat => b.WithTextFormat

/-- Apply a sequence of public mutator calls, left to right. -/
def applyOps (b : CommandBuilder) (ops : List BuilderOp) : CommandBuilder :=
  ops.foldl applyOp b

/-! ## Helper lemmas -/

theorem build_split (b : CommandBuilder) :
    b.Build = callerTokens b
      ++ (if b.project ≠ "" then ["--project=" ++ b.project] else [])
      ++ (if b.format ≠ "" then ["--format=" ++ b.format] else []) := by
  simp [CommandBuilder.Build, callerTokens, List.append_assoc]

theorem isPrefixOf_append_false (pre base rest : String)
    (hlen : pre.data.length ≤ base.data.length)
    (hne : pre.data.isPrefixOf base.data = false) :
    pre.data.isPrefixOf (base ++ rest).data = false := by
  have hd : (base ++ rest).data = base.data ++ rest.data := rfl
  rw [hd, Bool.eq_false_iff]
  intro hc
  have hp := List.isPrefixOf_iff_prefix.mp hc
  rw [List.isPrefix_append_of_length hlen] at hp
  rw [Bool.eq_false_iff] at hne
  exact hne (List.isPrefixOf_iff_prefix.mpr hp)

theorem isPrefixOf_append_self (pre rest : String) :
    pre.data.isPrefixOf (pre ++ rest).data = true := by
  rw [List.isPrefixOf_iff_prefix]
  exact ⟨rest.data, rfl⟩

theorem regionTok_region (r : String) : regionTok ("--region=" ++ r) = true := by
  simp [regionTok, isPrefixOf_append_self]

theorem regionTok_project (p : String) : regionTok ("--project=" ++ p) = false := by
  simpa [regionTok] using isPrefixOf_append_false "--region=" "--project=" p
    (by decide) (by decide)

theorem regionTok_format (f : String) : regionTok ("--format=" ++ f) = false := by
  simpa [regionTok] using isPrefixOf_append_false "--region=" "--format=" f
    (by decide) (by decide)

theorem fmtTok_format (f : String) : fmtTok ("--format=" ++ f) = true := by
  simp [fmtTok, isPrefixOf_append_self]

theorem fmtTok_project (p : String) : fmtTok ("--project=" ++ p) = false := by
  simpa [fmtTok] using isPrefixOf_append_false "--format=" "--project=" p
    (by decide) (by decide)

theorem setFlag_idem (l : List (String × String)) (n v : String) :
    setFlag (setFlag l n v) n v = setFlag l n v := by
  induction l with
  | nil => simp [setFlag]
  | cons p rest ih =>
      by_cases h : p.1 = n
      · simp [setFlag, h]
      · simp [setFlag, h, ih]

theorem setFlag_append_of_lookup_none (l : List (String × String)) (n v : String)
    (h : l.lookup n = none) : setFlag l n v = l ++ [(n, v)] := by
  induction l with
  | nil => rfl
  | cons p rest ih =>
      obtain ⟨k, w⟩ := p
      by_cases hk : k = n
      · simp [List.lookup, hk] at h
      · have hnk : (n == k) = false := by
          rw [beq_eq_false_iff_ne]
          exact fun he => hk he.symm
        rw [List.lookup, hnk] at h
        simp [setFlag, hk, ih h]

theorem count_eq_zero_of_countP_zero {p : String → Bool} (l : List String)
    (t : String) (hp : p t = true) (h : l.countP p = 0) : l.count t = 0 := by
  rw [List.count_eq_zero]
  intro hm
  have hf := (List.countP_eq_zero.mp h) t hm
  rw [hp] at hf
  exact hf rfl

theorem trimSpace_of_not_pos (s : String) (h : ¬ 0 < s.length) : trimSpace s = "" := by
  have hlen : s.data.length = 0 := by
    have he : s.length = s.data.length := rfl
    omega
  simp [trimSpace, List.length_eq_zero.mp hlen]

theorem applyOp_components (b : CommandBuilder) (op : BuilderOp) :
    (applyOp b op).components = b.components := by
  cases op <;>
    simp [applyOp, CommandBuilder.WithProject, CommandBuilder.WithRegion,
      CommandBuilder.WithZone, CommandBuilder.WithFlag, CommandBuilder.WithArrayFlag,
      CommandBuilder.WithBoolFlag, CommandBuilder.WithFormat,
      CommandBuilder.WithTextFormat] <;>
    split <;> rfl

/-! ## Claim theorems -/

/-- C1: Build yields the components verbatim, then one valued-flag token
per flags entry, then per arrayFlags key one token per stored value in
stored order, then one bool-flag token per boolFlags entry in order, then
the project token exactly when project is non-empty, then the format token
exactly when format is non-empty, and nothing else. -/
theorem c1_build_layout (b : CommandBuilder) :
    b.Build =
      b.components
        ++ b.flags.map (fun p => "--" ++ p.1 ++ "=" ++ p.2)
        ++ (b.arrayFlags.map fun p => p.2.map fun v => "--" ++ p.1 ++ "=" ++ v).flatten
        ++ b.boolFlags.map (fun f => "--" ++ f)
        ++ (if b.project = "" then [] else ["--project=" ++ b.project])
        ++ (if b.format = "" then [] else ["--format=" ++ b.format]) := by
  by_cases hp : b.project = "" <;> by_cases hf : b.format = "" <;>
    simp [CommandBuilder.Build, flagTokens, arrayFlagTokens, boolFlagTokens,
      flagToken, hp, hf]

/-- C2: setting any of WithFlag, WithArrayFlag, WithProject, WithRegion,
WithZone with an empty value leaves the builder state unchanged. -/
theorem c2_empty_value_noop (b : CommandBuilder) (name : String) :
    b.WithFlag name "" = b ∧ b.WithArrayFlag name "" = b ∧
    b.WithProject "" = b ∧ b.WithRegion "" = b ∧ b.WithZone "" = b := by
  refine ⟨?_, ?_, ?_, ?_, ?_⟩ <;>
    simp [CommandBuilder.WithFlag, CommandBuilder.WithArrayFlag,
      CommandBuilder.WithProject, CommandBuilder.WithRegion, CommandBuilder.WithZone]

/-- C3: a builder created by Command from a Config with non-empty Project P
builds an argument list containing the project token for P; a non-empty
WithProject override replaces it; an empty override preserves it. -/
theorem c3_project_inheritance (e : Executor) (cs : List String) (v : String)
    (hP : e.config.Project ≠ "") (hv : v ≠ "") :
    (e.Command cs).Build = cs ++ ["--project=" ++ e.config.Project, "--format=json"] ∧
    ((e.Command cs).WithProject v).Build = cs ++ ["--project=" ++ v, "--format=json"] ∧
    ((e.Command cs).WithProject "").Build
      = cs ++ ["--project=" ++ e.config.Project, "--format=json"] := by
  refine ⟨?_, ?_, ?_⟩ <;>
    simp [Executor.Command, CommandBuilder.Build, CommandBuilder.WithProject,
      flagTokens, arrayFlagTokens, boolFlagTokens, hP, hv]

theorem c3_witness :
    ((Executor.mk (Config.mk "P" "" "" "gcloud" 300)).Command ["run"]).Build
        = ["run", "--project=P", "--format=json"] ∧
    (((Executor.mk (Config.mk "P" "" "" "gcloud" 300)).Command ["run"]).WithProject "V").Build
        = ["run", "--project=V", "--format=json"] ∧
    (((Executor.mk (Config.mk "P" "" "" "gcloud" 300)).Command ["run"]).WithProject "").Build
        = ["run", "--project=P", "--format=json"] :=
  c3_project_inheritance (Executor.mk (Config.mk "P" "" "" "gcloud" 300)) ["run"] "V"
    (by decide) (by decide)

/-- C7 amended: WithProject, WithRegion, WithZone, WithFlag, WithFormat and
WithTextFormat are idempotent with respect to re-application; WithArrayFlag
and WithBoolFlag are not (each application appends another occurrence). -/
theorem c7_idempotent_mutators (b : CommandBuilder) (p r z n v f : String) :
    (b.WithProject p).WithProject p = b.WithProject p ∧
    (b.WithRegion r).WithRegion r = b.WithRegion r ∧
    (b.WithZone z).WithZone z = b.WithZone z ∧
    (b.WithFlag n v).WithFlag n v = b.WithFlag n v ∧
    (b.WithFormat f).WithFormat f = b.WithFormat f ∧
    b.WithTextFormat.WithTextFormat = b.WithTextFormat := by
  refine ⟨?_, ?_, ?_, ?_, ?_, ?_⟩
  · by_cases hp : p = "" <;> simp [CommandBuilder.WithProject, hp]
  · by_cases hr : r = "" <;> simp [CommandBuilder.WithRegion, hr]
  · by_cases hz : z = "" <;> simp [CommandBuilder.WithZone, hz]
  · by_cases hv : v = "" <;> simp [CommandBuilder.WithFlag, hv, setFlag_idem]
  · simp [CommandBuilder.WithFormat]
  · simp [CommandBuilder.WithTextFormat]

/-- C7 counterexample: WithBoolFlag and WithArrayFlag applied twice with the
same arguments do not equal a single application, refuting the claim that
every mutator is idempotent with respect to re-application. -/
theorem c7_counterexample :
    (((Executor.mk (Config.mk "" "" "" "gcloud" 300)).Command
        ["run"]).WithBoolFlag "quiet").WithBoolFlag "quiet"
      ≠ ((Executor.mk (Config.mk "" "" "" "gcloud" 300)).Command
        ["run"]).WithBoolFlag "quiet" ∧
    (((Executor.mk (Config.mk "" "" "" "gcloud" 300)).Command
        ["run"]).WithArrayFlag "env" "A=1").WithArrayFlag "env" "A=1"
      ≠ ((Executor.mk (Config.mk "" "" "" "gcloud" 300)).Command
        ["run"]).WithArrayFlag "env" "A=1" := by
  constructor <;> decide

/-- C8 amended: the components of a builder are exactly the list passed to
Command and are unchanged by every public mutator, so they are non-empty
whenever Command is invoked with at least one component; Command itself,
however, accepts an empty component list. -/
theorem c8_components_invariant (e : Executor) (cs : List String)
    (ops : List BuilderOp) (h : cs ≠ []) :
    (applyOps (e.Command cs) ops).components = cs ∧
    (applyOps (e.Command cs) ops).components ≠ [] := by
  have key : ∀ (b : CommandBuilder) (l : List BuilderOp),
      (applyOps b l).components = b.components := by
    intro b l
    induction l generalizing b with
    | nil => rfl
    | cons op rest ih => rw [applyOps, List.foldl_cons, ← applyOps, ih, applyOp_components]
  refine ⟨?_, ?_⟩
  · rw [key]; rfl
  · rw [key]; exact h

theorem c8_components_invariant_witness :
    (applyOps ((Executor.mk (Config.mk "" "" "" "gcloud" 300)).Command ["compute"])
        [BuilderOp.withBoolFlag "quiet", BuilderOp.withProject "x"]).components
      = ["compute"] ∧
    (applyOps ((Executor.mk (Config.mk "" "" "" "gcloud" 300)).Command ["compute"])
        [BuilderOp.withBoolFlag "quiet", BuilderOp.withProject "x"]).components
      ≠ [] :=
  c8_components_invariant (Executor.mk (Config.mk "" "" "" "gcloud" 300)) ["compute"]
    [BuilderOp.withBoolFlag "quiet", BuilderOp.withProject "x"] (by decide)

/-- C8 counterexample: Command accepts an empty component list and produces
a builder whose components sequence is empty, refuting the invariant that
every builder reachable through the public interface has non-empty
components. -/
theorem c8_counterexample :
    ((Executor.mk (Config.mk "" "" "" "gcloud" 300)).Command []).components = [] := rfl

/-- C10: WithFormat with the empty string yields exactly the builder state
of WithTextFormat: the default json format is lost and Build appends no
format token. -/
theorem c10_with_format_empty (b : CommandBuilder) :
    b.WithFormat "" = b.WithTextFormat ∧
    (b.WithFormat "").format = "" ∧
    (b.WithFormat "").Build = callerTokens b
      ++ (if b.project ≠ "" then ["--project=" ++ b.project] else []) := by
  refine ⟨rfl, rfl, ?_⟩
  rw [build_split]
  simp [CommandBuilder.WithFormat, callerTokens, flagTokens, arrayFlagTokens,
    boolFlagTokens]

/-- C4: with a non-empty region field and no region flag added by the
caller, ExecuteWithRegion passes an argument list with exactly one region
token carrying that region, while the generic Execute passes an argument
list with no region token at all. -/
theorem c4_region_injection (b : CommandBuilder)
    (hr : b.region ≠ "")
    (hlook : b.flags.lookup "region" = none)
    (hclean : (callerTokens b).countP regionTok = 0) :
    (executeWithRegionArgs b).count ("--region=" ++ b.region) = 1 ∧
    (executeArgs b).countP regionTok = 0 := by
  have hparts := hclean
  rw [callerTokens, List.countP_append, List.countP_append, List.countP_append] at hparts
  have hc1 : b.components.countP regionTok = 0 := by omega
  have hc2 : (flagTokens b.flags).countP regionTok = 0 := by omega
  have hc3 : (arrayFlagTokens b.arrayFlags).countP regionTok = 0 := by omega
  have hc4 : (boolFlagTokens b.boolFlags).countP regionTok = 0 := by omega
  have htok : regionTok ("--region=" ++ b.region) = true := regionTok_region b.region
  have hprojne : ("--region=" ++ b.region) ≠ ("--project=" ++ b.project) := by
    intro he
    have h2 := regionTok_project b.project
    rw [← he, htok] at h2
    exact absurd h2 (by simp)
  have hfmtne : ∀ f : String, ("--region=" ++ b.region) ≠ ("--format=" ++ f) := by
    intro f he
    have h2 := regionTok_format f
    rw [← he, htok] at h2
    exact absurd h2 (by simp)
  constructor
  · rw [executeWithRegionArgs, if_pos hr]
    have hW : b.WithFlag "region" b.region
        = { b with flags := b.flags ++ [("region", b.region)] } := by
      rw [CommandBuilder.WithFlag, if_pos hr, setFlag_append_of_lookup_none _ _ _ hlook]
    rw [hW, CommandBuilder.Build]
    simp only [flagTokens, List.map_append]
    have hsingle : List.map (fun p => flagToken p.1 p.2) [("region", b.region)]
        = ["--region=" ++ b.region] := rfl
    rw [hsingle]
    simp only [List.count_append]
    have z1 : b.components.count ("--region=" ++ b.region) = 0 :=
      count_eq_zero_of_countP_zero _ _ htok hc1
    have z2 : (List.map (fun p => flagToken p.1 p.2) b.flags).count
        ("--region=" ++ b.region) = 0 :=
      count_eq_zero_of_countP_zero _ _ htok (by simpa [flagTokens] using hc2)
    have z3 : (arrayFlagTokens b.arrayFlags).count ("--region=" ++ b.region) = 0 :=
      count_eq_zero_of_countP_zero _ _ htok hc3
    have z4 : (boolFlagTokens b.boolFlags).count ("--region=" ++ b.region) = 0 :=
      count_eq_zero_of_countP_zero _ _ htok hc4
    have z5 : (if b.project ≠ "" then ["--project=" ++ b.project] else []).count
        ("--region=" ++ b.region) = 0 := by
      split <;> simp [List.count_cons, hprojne]
    have z6 : (if b.format ≠ "" then ["--format=" ++ b.format] else []).count
        ("--region=" ++ b.region) = 0 := by
      split <;> simp [List.count_cons, hfmtne b.format]
    have zself : (["--region=" ++ b.region] : List String).count
        ("--region=" ++ b.region) = 1 := by simp
    omega
  · rw [executeArgs, build_split, List.countP_append, List.countP_append]
    have z5 : (if b.project ≠ "" then ["--project=" ++ b.project] else []).countP
        regionTok = 0 := by
      split <;> simp [regionTok_project]
    have z6 : (if b.format ≠ "" then ["--format=" ++ b.format] else []).countP
        regionTok = 0 := by
      split <;> simp [regionTok_format]
    omega

theorem c4_witness :
    (executeWithRegionArgs ((Executor.mk (Config.mk "P" "us-west1" "" "gcloud" 300)).Command
        ["compute", "forwarding-rules", "list"])).count "--region=us-west1" = 1 ∧
    (executeArgs ((Executor.mk (Config.mk "P" "us-west1" "" "gcloud" 300)).Command
        ["compute", "forwarding-rules", "list"])).countP regionTok = 0 :=
  c4_region_injection
    ((Executor.mk (Config.mk "P" "us-west1" "" "gcloud" 300)).Command
      ["compute", "forwarding-rules", "list"])
    (by decide) (by decide) (by decide)

/-- C5: after WithTextFormat, Build emits no token beginning with the
format-flag text; with the default format json untouched, Build emits
exactly one such token and it is the json format token. -/
theorem c5_format_duality (b : CommandBuilder)
    (hclean : (callerTokens b).countP fmtTok = 0)
    (hdef : b.format = "json") :
    b.WithTextFormat.Build.countP fmtTok = 0 ∧
    b.Build.countP fmtTok = 1 ∧ "--format=json" ∈ b.Build := by
  have hproj : (if b.project ≠ "" then ["--project=" ++ b.project] else []).countP
      fmtTok = 0 := by
    split <;> simp [fmtTok_project]
  refine ⟨?_, ?_, ?_⟩
  · rw [build_split]
    have h1 : callerTokens b.WithTextFormat = callerTokens b := rfl
    have h2 : b.WithTextFormat.project = b.project := rfl
    have h3 : b.WithTextFormat.format = "" := rfl
    rw [h1, h2, h3, List.countP_append, List.countP_append, hclean, hproj]
    simp
  · rw [build_split, List.countP_append, List.countP_append, hclean, hdef]
    have h5 : (if ("json" : String) ≠ "" then ["--format=" ++ "json"] else []).countP
        fmtTok = 1 := by decide
    omega
  · rw [build_split, hdef]
    refine List.mem_append_right _ ?_
    rw [if_pos (by decide)]
    simp

theorem c5_witness :
    ((Executor.mk (Config.mk "P" "" "" "gcloud" 300)).Command
        ["run", "services", "list"]).WithTextFormat.Build.countP fmtTok = 0 ∧
    ((Executor.mk (Config.mk "P" "" "" "gcloud" 300)).Command
        ["run", "services", "list"]).Build.countP fmtTok = 1 ∧
    "--format=json" ∈ ((Executor.mk (Config.mk "P" "" "" "gcloud" 300)).Command
        ["run", "services", "list"]).Build :=
  c5_format_duality
    ((Executor.mk (Config.mk "P" "" "" "gcloud" 300)).Command ["run", "services", "list"])
    (by decide) rfl

/-- C6: on the success path of Execute, the structured payload is present
exactly when the format field is json and the trimmed stdout is non-empty,
and it then equals the trimmed stdout verbatim with no well-formedness
check; otherwise it is absent. -/
theorem c6_json_payload (b : CommandBuilder) (stdout stderr : String) :
    (interpretSuccess b stdout stderr).JSON =
      if b.format = "json" ∧ trimSpace stdout ≠ "" then some (trimSpace stdout)
      else none := by
  unfold interpretSuccess
  by_cases h1 : b.format = "json"
  · by_cases h2 : trimSpace stdout = ""
    · by_cases h3 : 0 < stdout.length <;> simp [h1, h2, h3]
    · have hlen : 0 < stdout.length := by
        by_contra hn
        exact h2 (trimSpace_of_not_pos stdout hn)
      simp [h1, h2, hlen]
  · simp [h1]

/-- C9: the error response emitted by FormatError deserializes to an error
field carrying the message, and command and stderr fields carrying their
strings exactly when those are non-empty and omitted entirely when empty;
in particular the boom scenario yields all three fields. -/
theorem c9_format_error (msg cmd err : String) :
    (FormatError msg cmd err).lookup "error" = some msg ∧
    (FormatError msg cmd err).lookup "command" = (if cmd = "" then none else some cmd) ∧
    (FormatError msg cmd err).lookup "stderr" = (if err = "" then none else some err) ∧
    FormatError "boom" "tool x y" "denied"
      = [("error", "boom"), ("command", "tool x y"), ("stderr", "denied")] := by
  refine ⟨?_, ?_, ?_, by decide⟩ <;>
    by_cases hc : cmd = "" <;> by_cases he : err = "" <;>
      simp [FormatError, ErrorResponse.marshalFields, List.lookup, hc, he]

end GcloudMcp
